import Mathlib

/-!
Verification of the KREPS RAG system's API service layer.

This file gives a shallow embedding of the TypeScript API layer
(`queryRAG`, `autoDetectSecurity`, `normalizeSystemConfig`, the
localStorage-backed query-activity log with `getQueryActivity`,
`appendQueryActivity`, `clearQueryActivity`, and
`summarizeQueryActivity`) and proves properties of the embedded
definitions.

JavaScript values that can flow through `JSON.parse`/`JSON.stringify`
are modelled by the inductive `JValue` (JSON never produces `NaN`,
`Infinity`, `undefined` or functions, so those are not constructors;
where a plain TypeScript `number` field may carry them, the model uses
the separate type `JSNum`).  `fetch` outcomes are modelled by
`FetchOutcome`: the promise may reject, resolve with a non-ok response,
or resolve with an ok response carrying a typed body.  localStorage
under the single key used by the activity log is modelled by `Stored`
(key absent, text that `JSON.parse` rejects, or text parsing to a
`JValue`); the `canUseStorage()` guard is an environment check — when
localStorage is unavailable all three storage functions are no-ops —
so the model covers the storage-available environment, the only one in
which the store has observable state.
-/

/-- A JavaScript value in the image of `JSON.parse` (equivalently, a
value `JSON.stringify` round-trips exactly). -/
inductive JValue where
  | jnull
  | jbool (b : Bool)
  | jnum (q : ℚ)
  | jstr (s : String)
  | jarr (elems : List JValue)
  | jobj (fields : List (String × JValue))

/-- JavaScript truthiness of a `JValue` (the `!!e` test). -/
def jsTruthy : JValue → Bool
  | .jnull => false
  | .jbool b => b
  | .jnum q => decide (q ≠ 0)
  | .jstr s => decide (s ≠ "")
  | .jarr _ => true
  | .jobj _ => true

/-- Whether `typeof v === "object"` holds for a `JValue` (true for
`null`, arrays and plain objects). -/
def isObjectLike : JValue → Bool
  | .jnull => true
  | .jarr _ => true
  | .jobj _ => true
  | _ => false

/-- The filter predicate of `getQueryActivity`:
`(e) => !!e && typeof e === "object"`. -/
def keepEntry (v : JValue) : Bool := jsTruthy v && isObjectLike v

/-- A TypeScript `number`, which unlike a JSON literal may be `NaN` or
an infinity. -/
inductive JSNum where
  | finite (q : ℚ)
  | nan
  | posInf
  | negInf

/-- `Number.isFinite` on a `JSNum`. -/
def JSNum.isFinite : JSNum → Bool
  | .finite _ => true
  | _ => false

/-- `JSON.stringify` image of a `JSNum`: `NaN` and the infinities are
serialized as `null`. -/
def jsNumToJson : JSNum → JValue
  | .finite q => .jnum q
  | _ => .jnull

/-- The `QueryActivityEntry` interface: `id`, `timestamp`, `query`,
`sources` and `success` are required; the numeric timing/length fields
and `error_message` are optional (`?`), and a present numeric field is
a TypeScript `number`, hence a `JSNum`. -/
structure QueryActivityEntry where
  id : String
  timestamp : String
  query : String
  sources : List String
  retrieval_time_ms : Option JSNum
  generation_time_ms : Option JSNum
  total_time_ms : Option JSNum
  answer_length_chars : Option JSNum
  success : Bool
  error_message : Option String

/-- `JSON.stringify` image of one optional numeric field: an absent
(`undefined`) field is omitted from the serialized object. -/
def optNumField (name : String) : Option JSNum → List (String × JValue)
  | none => []
  | some n => [(name, jsNumToJson n)]

/-- `JSON.stringify` image of an optional string field. -/
def optStrField (name : String) : Option String → List (String × JValue)
  | none => []
  | some s => [(name, .jstr s)]

/-- The `JSON.stringify`/`JSON.parse` round-trip image of a
`QueryActivityEntry` (what `appendQueryActivity` actually persists). -/
def entryToJ (e : QueryActivityEntry) : JValue :=
  .jobj
    ([("id", .jstr e.id), ("timestamp", .jstr e.timestamp),
      ("query", .jstr e.query), ("sources", .jarr (e.sources.map .jstr))]
      ++ optNumField "retrieval_time_ms" e.retrieval_time_ms
      ++ optNumField "generation_time_ms" e.generation_time_ms
      ++ optNumField "total_time_ms" e.total_time_ms
      ++ optNumField "answer_length_chars" e.answer_length_chars
      ++ [("success", .jbool e.success)]
      ++ optStrField "error_message" e.error_message)

/-- The localStorage state under `STORAGE_KEY`
(`"intellecta.queryActivity.v1"`): the key may be absent
(`getItem` returns `null`), hold text that `JSON.parse` rejects, or
hold text that parses to a `JValue`. -/
inductive Stored where
  | absent
  | invalid
  | value (v : JValue)

/-- `MAX_ENTRIES = 200`. -/
def MAX_ENTRIES : ℕ := 200

/-- `getQueryActivity()`: read and parse the stored text; a missing
key, a parse error, or a parsed non-array yields `[]`; a parsed array
is filtered to its truthy object elements. -/
def getQueryActivity : Stored → List JValue
  | .absent => []
  | .invalid => []
  | .value v =>
    match v with
    | .jarr elems => elems.filter keepEntry
    | _ => []

/-- `appendQueryActivity(entry)`: prepend the new entry to the current
(parsed, filtered) list, truncate to `MAX_ENTRIES`, and store the
serialized result. -/
def appendQueryActivity (s : Stored) (e : QueryActivityEntry) : Stored :=
  .value (.jarr ((entryToJ e :: getQueryActivity s).take MAX_ENTRIES))

/-- `clearQueryActivity()`: `localStorage.removeItem(STORAGE_KEY)`. -/
def clearQueryActivity (_ : Stored) : Stored := .absent

/-- Every element returned by `getQueryActivity` passes its own filter. -/
theorem keepEntry_of_mem_getQueryActivity (s : Stored) :
    ∀ v ∈ getQueryActivity s, keepEntry v = true := by
  intro v hv
  cases s with
  | absent => simp [getQueryActivity] at hv
  | invalid => simp [getQueryActivity] at hv
  | value j =>
    cases j with
    | jarr elems =>
      exact List.of_mem_filter hv
    | jnull => simp [getQueryActivity] at hv
    | jbool b => simp [getQueryActivity] at hv
    | jnum q => simp [getQueryActivity] at hv
    | jstr t => simp [getQueryActivity] at hv
    | jobj fs => simp [getQueryActivity] at hv

/-- The serialized image of an entry is a truthy object. -/
theorem keepEntry_entryToJ (e : QueryActivityEntry) : keepEntry (entryToJ e) = true := rfl

/-- Reading back immediately after an append yields exactly the
prepended-and-truncated list (the new entry and the retained old ones
all pass the read filter). -/
theorem getQueryActivity_appendQueryActivity (s : Stored) (e : QueryActivityEntry) :
    getQueryActivity (appendQueryActivity s e)
      = (entryToJ e :: getQueryActivity s).take MAX_ENTRIES := by
  show ((entryToJ e :: getQueryActivity s).take MAX_ENTRIES).filter keepEntry
      = (entryToJ e :: getQueryActivity s).take MAX_ENTRIES
  apply List.filter_eq_self.mpr
  intro v hv
  have hv' : v ∈ entryToJ e :: getQueryActivity s :=
    (List.take_sublist _ _).mem hv
  rcases List.mem_cons.mp hv' with h | h
  · rw [h]; exact keepEntry_entryToJ e
  · exact keepEntry_of_mem_getQueryActivity s v h

/-- A concrete activity entry used in concrete instances. -/
def sampleEntry : QueryActivityEntry :=
  { id := "q-1", timestamp := "2024-01-01T00:00:00Z", query := "hello",
    sources := ["a.pdf"], retrieval_time_ms := none, generation_time_ms := none,
    total_time_ms := none, answer_length_chars := none, success := true,
    error_message := none }

/-- A stored history already holding `MAX_ENTRIES` object entries. -/
def fullHistory : Stored := .value (.jarr (List.replicate MAX_ENTRIES (.jobj [])))

/-- A stored array mixing null, numbers, strings, booleans, an object
and a nested array. -/
def garbageStored : Stored :=
  .value (.jarr [.jnull, .jnum 0, .jnum 3, .jstr "", .jstr "x",
                 .jobj [("a", .jbool true)], .jarr [], .jbool false])

/-- C2: the query-activity history is capacity-bounded with FIFO
eviction — for every prior stored state and every new entry, after
`appendQueryActivity` the history holds at most `MAX_ENTRIES = 200`
entries, and it equals exactly the new entry followed by the prior
entries truncated at the capacity, so only the oldest (tail) entries
are evicted and never the newly appended one. -/
theorem appendQueryActivity_bounded_fifo (s : Stored) (e : QueryActivityEntry) :
    (getQueryActivity (appendQueryActivity s e)).length ≤ MAX_ENTRIES ∧
    getQueryActivity (appendQueryActivity s e)
      = (entryToJ e :: getQueryActivity s).take MAX_ENTRIES := by
  refine ⟨?_, getQueryActivity_appendQueryActivity s e⟩
  rw [getQueryActivity_appendQueryActivity s e]
  exact List.length_take_le _ _

/-- C6 counterexample: with a prior history already at capacity
(200 entries), appending does NOT leave the new entry followed by all
previously stored entries — the oldest one is truncated away, so the
claimed round-trip equation fails at this concrete state. -/
theorem getQueryActivity_append_roundtrip_cex :
    ¬ (getQueryActivity (appendQueryActivity fullHistory sampleEntry)
        = entryToJ sampleEntry :: getQueryActivity fullHistory) := by
  intro h
  have hlen := congrArg List.length h
  have h1 : (getQueryActivity (appendQueryActivity fullHistory sampleEntry)).length = 200 := by
    rfl
  have h2 : (entryToJ sampleEntry :: getQueryActivity fullHistory).length = 201 := by
    rfl
  rw [h1, h2] at hlen
  exact absurd hlen (by decide)

/-- C6 (amended): the activity log is newest-first and append
round-trips up to capacity — after `appendQueryActivity e`, the first
element read back is the serialized image of `e`, followed by the
previously stored entries in their prior order truncated to the first
`MAX_ENTRIES - 1 = 199` of them. -/
theorem getQueryActivity_append_roundtrip_truncated (s : Stored) (e : QueryActivityEntry) :
    getQueryActivity (appendQueryActivity s e)
      = entryToJ e :: (getQueryActivity s).take (MAX_ENTRIES - 1) := by
  rw [getQueryActivity_appendQueryActivity]
  have h : MAX_ENTRIES = 199 + 1 := rfl
  rw [h, List.take_succ_cons]

/-- C7: clearing the activity history is idempotent and leaves an
empty history — for every storage state, clearing twice equals
clearing once, reading after a clear yields `[]`, and clearing an
already-empty history is the same no-op success. -/
theorem clearQueryActivity_idempotent_empty (s : Stored) :
    clearQueryActivity (clearQueryActivity s) = clearQueryActivity s ∧
    getQueryActivity (clearQueryActivity s) = [] ∧
    clearQueryActivity Stored.absent = Stored.absent :=
  ⟨rfl, rfl, rfl⟩

/-- C8: `getQueryActivity` is total over arbitrary storage contents —
it is a total function returning a list, every returned element is a
truthy (non-null) value of JavaScript type "object", and on a stored
array it returns exactly the elements passing that filter (dropping
the rest). -/
theorem getQueryActivity_total_objects_only (s : Stored) :
    (∀ v ∈ getQueryActivity s, jsTruthy v = true ∧ isObjectLike v = true) ∧
    (∀ elems, s = .value (.jarr elems) → getQueryActivity s = elems.filter keepEntry) := by
  constructor
  · intro v hv
    have h := keepEntry_of_mem_getQueryActivity s v hv
    exact Bool.and_eq_true_iff.mp h
  · intro elems h
    subst h
    rfl

/-- C8 witness: on a concrete stored array mixing null, numbers,
strings, booleans, an object and a nested array, reading back keeps
exactly the object and the array. -/
theorem getQueryActivity_total_objects_only_witness :
    getQueryActivity garbageStored
      = [JValue.jobj [("a", JValue.jbool true)], JValue.jarr []] := by
  have h := (getQueryActivity_total_objects_only garbageStored).2
    [.jnull, .jnum 0, .jnum 3, .jstr "", .jstr "x",
     .jobj [("a", .jbool true)], .jarr [], .jbool false] rfl
  rw [h]
  rfl

/-- Outcome of a `fetch` call as observed by the `try` block: the
promise may reject (network failure), resolve with a non-ok HTTP
response (which the code turns into a thrown `Error`), or resolve ok
with a parsed body of the expected type. -/
inductive FetchOutcome (α : Type) where
  | reject
  | notOk (statusText : String)
  | ok (body : α)

/-- Whether the backend call failed (the `catch` branch runs). -/
def FetchOutcome.failed {α : Type} : FetchOutcome α → Bool
  | .ok _ => false
  | _ => true

/-- The `SecurityLevel` union type:
`'PUBLIC' | 'INTERNAL' | 'CONFIDENTIAL' | 'RESTRICTED' | 'TOP_SECRET'`. -/
inductive SecurityLevel where
  | PUBLIC
  | INTERNAL
  | CONFIDENTIAL
  | RESTRICTED
  | TOP_SECRET
deriving DecidableEq

/-- The wire string of a `SecurityLevel` (the union's string literal). -/
def SecurityLevel.toWire : SecurityLevel → String
  | .PUBLIC => "PUBLIC"
  | .INTERNAL => "INTERNAL"
  | .CONFIDENTIAL => "CONFIDENTIAL"
  | .RESTRICTED => "RESTRICTED"
  | .TOP_SECRET => "TOP_SECRET"

/-- The `SecurityInfo` interface (`warning` and `matched_keyword` are
optional-or-null; absence and `null` are conflated into `none`). -/
structure SecurityInfo where
  level : SecurityLevel
  warning : Option String
  matched_keyword : Option String
  access_allowed : Bool

/-- The `KeywordMapping` interface. -/
structure KeywordMapping where
  keyword : String
  sql : String
  description : String
  data_format : String

/-- The `KeywordInfo` interface. -/
structure KeywordInfo where
  count : ℚ
  mappings : List KeywordMapping

/-- The `RetrievalMetrics` interface (all fields TS numbers coming
from parsed JSON, hence rationals). -/
structure RetrievalMetrics where
  accuracy : ℚ
  precision : ℚ
  efficiency : ℚ
  throughput : ℚ
  avg_distance : ℚ
  min_distance : ℚ
  max_distance : ℚ
  high_quality_ratio : ℚ
  chunks_analyzed : ℚ
  chunks_per_second : ℚ

/-- The `QueryResponse` interface; fields marked `?` are `Option`s. -/
structure QueryResponse where
  answer : String
  sources : List String
  retrieval_time_ms : ℚ
  generation_time_ms : ℚ
  fast_mode : Option Bool
  model_used : Option String
  security : Option SecurityInfo
  keywords : Option KeywordInfo
  chunks_used : Option ℚ
  chunks_blocked : Option ℚ
  metrics : Option RetrievalMetrics

/-- The mock response `queryRAG`'s `catch` branch fabricates: a fixed
simulated answer interpolating the query text, three fixed mock source
citations, and fixed timings. -/
def mockQueryResponse (query : String) : QueryResponse :=
  { answer := "This is a simulated response for the query: \"" ++ query
      ++ "\"\n\nIn a production environment, this would contain the actual generated response from the local LLM based on retrieved context from your ingested documents.\n\n본 시스템은 한국어 질의도 지원합니다. 문서에서 관련 정보를 검색하여 답변을 생성합니다.",
    sources := ["document1.pdf (page 3)", "document2.txt (chunk 7)", "notes.docx (section 2)"],
    retrieval_time_ms := 245,
    generation_time_ms := 1823,
    fast_mode := none, model_used := none, security := none, keywords := none,
    chunks_used := none, chunks_blocked := none, metrics := none }

/-- JSON encoding of the `document_ids` argument
(`string[] | null`, `null` meaning no document filter). -/
def jOfDocumentIds : Option (List String) → JValue
  | none => .jnull
  | some ids => .jarr (ids.map .jstr)

/-- JSON encoding of the `fast_mode` argument (`boolean | null`). -/
def jOfFastMode : Option Bool → JValue
  | none => .jnull
  | some b => .jbool b

/-- The body `queryRAG` serializes for `POST /query`:
`JSON.stringify` of the object literal with exactly the five
properties `query`, `language`, `security_clearance`, `document_ids`,
`fast_mode`, in that order, each taken from the caller's arguments. -/
def queryRequestBody (query : String) (language : String)
    (securityClearance : SecurityLevel) (documentIds : Option (List String))
    (fastMode : Option Bool) : List (String × JValue) :=
  [("query", .jstr query),
   ("language", .jstr language),
   ("security_clearance", .jstr securityClearance.toWire),
   ("document_ids", jOfDocumentIds documentIds),
   ("fast_mode", jOfFastMode fastMode)]

/-- `queryRAG`: on an ok response it returns the parsed body; any
failure (rejected fetch, or the `Error` thrown on a non-ok response)
lands in the `catch` branch, which returns the simulated mock response
instead of propagating the failure.  The TypeScript function never
throws, so viewed as an `Except` it always produces `.ok`. -/
def queryRAG (backend : FetchOutcome QueryResponse) (query : String)
    (language : String) (securityClearance : SecurityLevel)
    (documentIds : Option (List String)) (fastMode : Option Bool) :
    Except String QueryResponse :=
  match backend with
  | .ok body => .ok body
  | _ => .ok (mockQueryResponse query)

/-- C1 counterexample: at a concrete failing backend call (the fetch
promise rejects), `queryRAG` does not surface any failure to the
caller — there is no error result; instead it returns success carrying
the fabricated simulated response for the query. -/
theorem queryRAG_failure_not_surfaced_cex :
    (¬ ∃ msg, queryRAG .reject "hello" "en" .CONFIDENTIAL none none
        = Except.error msg) ∧
    queryRAG .reject "hello" "en" .CONFIDENTIAL none none
      = Except.ok (mockQueryResponse "hello") := by
  constructor
  · rintro ⟨msg, h⟩
    exact absurd h (by simp [queryRAG])
  · rfl

/-- C1 (amended): for every query whose backend call fails (fetch
rejects or the HTTP response is not ok), `queryRAG` does not surface
the failure: it catches it and returns success carrying the fixed
simulated fallback response built from the query text. -/
theorem queryRAG_failure_returns_simulated_fallback
    (backend : FetchOutcome QueryResponse) (query language : String)
    (sc : SecurityLevel) (documentIds : Option (List String))
    (fastMode : Option Bool) (h : backend.failed = true) :
    queryRAG backend query language sc documentIds fastMode
      = Except.ok (mockQueryResponse query) := by
  cases backend with
  | ok body => simp [FetchOutcome.failed] at h
  | reject => rfl
  | notOk st => rfl

/-- C1 witness: a concrete non-ok HTTP response yields exactly the
simulated fallback. -/
theorem queryRAG_failure_returns_simulated_fallback_witness :
    queryRAG (FetchOutcome.notOk "Internal Server Error") "q" "ko"
        SecurityLevel.PUBLIC none (some true)
      = Except.ok (mockQueryResponse "q") :=
  queryRAG_failure_returns_simulated_fallback
    (FetchOutcome.notOk "Internal Server Error") "q" "ko"
    SecurityLevel.PUBLIC none (some true) rfl

/-- C5: the body sent to `POST /query` consists of exactly the five
fields `query`, `language`, `security_clearance`, `document_ids` and
`fast_mode`, and each carries the caller's corresponding argument
passed through unchanged (`document_ids` null meaning no filter). -/
theorem queryRAG_request_body_exact_fields (query language : String)
    (sc : SecurityLevel) (documentIds : Option (List String))
    (fastMode : Option Bool) :
    (queryRequestBody query language sc documentIds fastMode).map Prod.fst
      = ["query", "language", "security_clearance", "document_ids", "fast_mode"] ∧
    (queryRequestBody query language sc documentIds fastMode).lookup "query"
      = some (.jstr query) ∧
    (queryRequestBody query language sc documentIds fastMode).lookup "language"
      = some (.jstr language) ∧
    (queryRequestBody query language sc documentIds fastMode).lookup "security_clearance"
      = some (.jstr sc.toWire) ∧
    (queryRequestBody query language sc documentIds fastMode).lookup "document_ids"
      = some (jOfDocumentIds documentIds) ∧
    (queryRequestBody query language sc documentIds fastMode).lookup "fast_mode"
      = some (jOfFastMode fastMode) :=
  ⟨rfl, rfl, rfl, rfl, rfl, rfl⟩

/-- The `SecurityFinding` shape inside `SecurityAutoDetectResponse`
(`matchText` models the wire field `match` and `matchList` the wire
field `matches`, both Lean keywords). -/
structure SecurityFinding where
  type : String
  matchText : Option String
  pattern : Option String
  matchList : Option (List String)
  level : SecurityLevel

/-- The `SecurityAutoDetectResponse` interface. -/
structure SecurityAutoDetectResponse where
  detected_level : SecurityLevel
  level_value : ℚ
  confidence : ℚ
  findings_count : ℚ
  findings : List SecurityFinding
  recommendation : String

/-- The default result `autoDetectSecurity`'s `catch` branch returns
when the backend call fails. -/
def autoDetectFallback : SecurityAutoDetectResponse :=
  { detected_level := .PUBLIC, level_value := 1, confidence := 0,
    findings_count := 0, findings := [],
    recommendation := "Unable to analyze documents. Defaulting to PUBLIC access." }

/-- `autoDetectSecurity`: returns the parsed body on success; any
failure is caught and replaced by the PUBLIC default — the function
never throws. -/
def autoDetectSecurity (backend : FetchOutcome SecurityAutoDetectResponse)
    (documentIds : List String) : SecurityAutoDetectResponse :=
  match backend with
  | .ok body => body
  | _ => autoDetectFallback

/-- C3: when security auto-detection cannot analyze the documents
(the backend call fails), the operation returns detected_level PUBLIC
with confidence 0, findings_count 0, an empty findings list, and a
recommendation string stating the default to PUBLIC; being a total
function into the response type, it never throws to the caller. -/
theorem autoDetectSecurity_failure_defaults_public
    (backend : FetchOutcome SecurityAutoDetectResponse)
    (documentIds : List String) (h : backend.failed = true) :
    (autoDetectSecurity backend documentIds).detected_level = SecurityLevel.PUBLIC ∧
    (autoDetectSecurity backend documentIds).confidence = 0 ∧
    (autoDetectSecurity backend documentIds).findings_count = 0 ∧
    (autoDetectSecurity backend documentIds).findings = [] ∧
    (autoDetectSecurity backend documentIds).recommendation
      = "Unable to analyze documents. " ++ "Defaulting to PUBLIC" ++ " access." := by
  cases backend with
  | ok body => simp [FetchOutcome.failed] at h
  | reject => exact ⟨rfl, rfl, rfl, rfl, rfl⟩
  | notOk st => exact ⟨rfl, rfl, rfl, rfl, rfl⟩

/-- C3 witness: a concrete rejected call defaults to PUBLIC. -/
theorem autoDetectSecurity_failure_defaults_public_witness :
    (autoDetectSecurity FetchOutcome.reject ["doc-1"]).detected_level
        = SecurityLevel.PUBLIC ∧
    (autoDetectSecurity FetchOutcome.reject ["doc-1"]).confidence = 0 :=
  ⟨(autoDetectSecurity_failure_defaults_public FetchOutcome.reject ["doc-1"] rfl).1,
   (autoDetectSecurity_failure_defaults_public FetchOutcome.reject ["doc-1"] rfl).2.1⟩

/-- Modelled from the spec: the ordinal encoding of `SecurityLevel`
(PUBLIC=0, INTERNAL=1, CONFIDENTIAL=2, RESTRICTED=3, TOP_SECRET=4).
The backend component that implements this encoding is not among the
source files; only the spec states it. -/
def levelValue : SecurityLevel → ℚ
  | .PUBLIC => 0
  | .INTERNAL => 1
  | .CONFIDENTIAL => 2
  | .RESTRICTED => 3
  | .TOP_SECRET => 4

/-- C4: the auto-detect failure fallback violates the ordinal encoding
of security levels — at a failing backend call it reports
detected_level PUBLIC together with level_value 1, whereas PUBLIC's
ordinal is 0, so the result's level_value disagrees with the ordinal
of its own detected_level. -/
theorem autoDetectSecurity_public_level_value_mismatch :
    (autoDetectSecurity FetchOutcome.reject []).detected_level = SecurityLevel.PUBLIC ∧
    (autoDetectSecurity FetchOutcome.reject []).level_value = 1 ∧
    levelValue SecurityLevel.PUBLIC = 0 ∧
    (autoDetectSecurity FetchOutcome.reject []).level_value
      ≠ levelValue (autoDetectSecurity FetchOutcome.reject []).detected_level := by
  refine ⟨rfl, rfl, rfl, ?_⟩
  norm_num [autoDetectSecurity, autoDetectFallback, levelValue]

/-- The `typeof n === "number" && Number.isFinite(n)` type-guard filter
applied to an optional numeric field, extracting the finite value
(`undefined`, `NaN` and the infinities are rejected). -/
def finiteVal : Option JSNum → Option ℚ
  | some (.finite q) => some q
  | _ => none

/-- `Math.round` on a finite number: round half toward positive
infinity. -/
def jsRound (q : ℚ) : ℤ := ⌊q + 1 / 2⌋

/-- `avg(nums)`: `undefined` on an empty list, otherwise `Math.round`
of the mean. -/
def avg (nums : List ℚ) : Option ℤ :=
  if nums.length = 0 then none
  else some (jsRound (nums.sum / (nums.length : ℚ)))

/-- One `counts.set(s, (counts.get(s) ?? 0) + 1)` step on a JS `Map`
represented as its insertion-ordered key/value list: an existing key
keeps its position and its value is incremented, a new key is appended
with value 1. -/
def bumpCount (counts : List (String × ℕ)) (s : String) : List (String × ℕ) :=
  if counts.any (fun p => p.1 == s) then
    counts.map (fun p => if p.1 == s then (p.1, p.2 + 1) else p)
  else counts ++ [(s, 1)]

/-- The `counts` map after the nested `for` loops over entries and
their sources (`e.sources ?? []` never fires: `sources` is a required
field). -/
def sourceCounts (entries : List QueryActivityEntry) : List (String × ℕ) :=
  entries.foldl (fun c e => e.sources.foldl bumpCount c) []

/-- The `QueryActivitySummary` interface; the three `avg_*` fields are
optional (`undefined` when `avg` had no input), `top_sources` keeps
the `{source, count}` pairs as pairs. -/
structure QueryActivitySummary where
  total_queries : ℕ
  success_rate : ℚ
  avg_retrieval_time_ms : Option ℤ
  avg_generation_time_ms : Option ℤ
  avg_total_time_ms : Option ℤ
  unique_sources_count : ℕ
  top_sources : List (String × ℕ)

/-- `summarizeQueryActivity`: success rate over all entries, rounded
averages of the finite timing fields (the source's `map` followed by a
type-guard `filter` is `filterMap` here), distinct-source count from
the `Map`'s size, and the top 20 sources sorted by count descending
(the JS `sort` with comparator `b[1] - a[1]` is a stable descending
sort, i.e. a merge sort under `b.2 ≤ a.2`). -/
def summarizeQueryActivity (entries : List QueryActivityEntry) : QueryActivitySummary :=
  { total_queries := entries.length,
    success_rate :=
      if entries.length = 0 then 0
      else ((entries.filter (fun e => e.success)).length : ℚ) / (entries.length : ℚ),
    avg_retrieval_time_ms := avg (entries.filterMap (fun e => finiteVal e.retrieval_time_ms)),
    avg_generation_time_ms := avg (entries.filterMap (fun e => finiteVal e.generation_time_ms)),
    avg_total_time_ms := avg (entries.filterMap (fun e => finiteVal e.total_time_ms)),
    unique_sources_count := (sourceCounts entries).length,
    top_sources :=
      ((sourceCounts entries).mergeSort (fun a b => decide (b.2 ≤ a.2))).take 20 }

/-- The insertion-ordered key list of a counts map. -/
def mapKeys (c : List (String × ℕ)) : List String := c.map Prod.fst

/-- `bumpCount` leaves the key list unchanged when the key is present
and appends it otherwise. -/
theorem mapKeys_bumpCount (c : List (String × ℕ)) (s : String) :
    mapKeys (bumpCount c s)
      = if s ∈ mapKeys c then mapKeys c else mapKeys c ++ [s] := by
  by_cases h : c.any (fun p => p.1 == s) = true
  · have hmem : s ∈ mapKeys c := by
      rcases List.any_eq_true.mp h with ⟨p, hp, hps⟩
      exact List.mem_map.mpr ⟨p, hp, beq_iff_eq.mp hps⟩
    rw [if_pos hmem]
    unfold bumpCount mapKeys
    rw [if_pos h, List.map_map]
    apply List.map_congr_left
    intro p _
    show (if p.1 == s then (p.1, p.2 + 1) else p).1 = p.1
    split
    · rfl
    · rfl
  · have hmem : s ∉ mapKeys c := by
      intro hs
      rcases List.mem_map.mp hs with ⟨p, hp, hfst⟩
      exact h (List.any_eq_true.mpr ⟨p, hp, beq_iff_eq.mpr hfst⟩)
    rw [if_neg hmem]
    unfold bumpCount mapKeys
    rw [if_neg h, List.map_append]
    rfl

/-- `bumpCount` keeps the key list duplicate-free and inserts the new
key into its key set. -/
theorem bumpCount_keys_nodup_toFinset (c : List (String × ℕ)) (s : String)
    (h : (mapKeys c).Nodup) :
    (mapKeys (bumpCount c s)).Nodup ∧
    (mapKeys (bumpCount c s)).toFinset = insert s (mapKeys c).toFinset := by
  rw [mapKeys_bumpCount]
  by_cases hs : s ∈ mapKeys c
  · rw [if_pos hs]
    exact ⟨h, (Finset.insert_eq_self.mpr (List.mem_toFinset.mpr hs)).symm⟩
  · rw [if_neg hs]
    constructor
    · exact List.Nodup.append h (List.nodup_singleton s)
        (by intro a ha hb; rw [List.mem_singleton.mp hb] at ha; exact hs ha)
    · ext a
      simp [List.mem_toFinset, or_comm]
  -- membership in `l ++ [s]` is membership in `l` or equality with `s`

/-- Folding `bumpCount` over a source list: keys stay duplicate-free
and the key set grows by exactly the folded sources. -/
theorem sourcesFold_keys (ss : List String) :
    ∀ c : List (String × ℕ), (mapKeys c).Nodup →
      (mapKeys (ss.foldl bumpCount c)).Nodup ∧
      (mapKeys (ss.foldl bumpCount c)).toFinset
        = (mapKeys c).toFinset ∪ ss.toFinset := by
  induction ss with
  | nil =>
    intro c h
    exact ⟨h, by simp⟩
  | cons s ss ih =>
    intro c h
    have hb := bumpCount_keys_nodup_toFinset c s h
    have hrec := ih (bumpCount c s) hb.1
    refine ⟨hrec.1, ?_⟩
    rw [List.foldl_cons, hrec.2, hb.2]
    ext a
    simp

/-- Folding the per-entry source loops over all entries: the key set
is the starting key set plus every source of every entry. -/
theorem entriesFold_keys (es : List QueryActivityEntry) :
    ∀ c : List (String × ℕ), (mapKeys c).Nodup →
      (mapKeys (es.foldl (fun c e => e.sources.foldl bumpCount c) c)).Nodup ∧
      (mapKeys (es.foldl (fun c e => e.sources.foldl bumpCount c) c)).toFinset
        = (mapKeys c).toFinset ∪ (es.flatMap (fun e => e.sources)).toFinset := by
  induction es with
  | nil =>
    intro c h
    exact ⟨h, by simp⟩
  | cons e es ih =>
    intro c h
    have h1 := sourcesFold_keys e.sources c h
    have hrec := ih (e.sources.foldl bumpCount c) h1.1
    refine ⟨hrec.1, ?_⟩
    rw [List.foldl_cons, hrec.2, h1.2]
    ext a
    simp

/-- The size of the counts map is the number of distinct source
strings across all entries. -/
theorem sourceCounts_length (entries : List QueryActivityEntry) :
    (sourceCounts entries).length
      = (entries.flatMap (fun e => e.sources)).dedup.length := by
  have h := entriesFold_keys entries [] (by simp [mapKeys])
  have hset : (mapKeys (sourceCounts entries)).toFinset
      = (entries.flatMap (fun e => e.sources)).toFinset := by
    have := h.2
    simpa [sourceCounts, mapKeys] using this
  calc (sourceCounts entries).length
      = (mapKeys (sourceCounts entries)).length := (List.length_map _ _).symm
    _ = (mapKeys (sourceCounts entries)).toFinset.card :=
        (List.toFinset_card_of_nodup (by simpa [sourceCounts] using h.1)).symm
    _ = (entries.flatMap (fun e => e.sources)).toFinset.card := by rw [hset]
    _ = (entries.flatMap (fun e => e.sources)).dedup.length :=
        List.card_toFinset _

/-- `avg` is `undefined` exactly on the empty list. -/
theorem avg_eq_none_iff (nums : List ℚ) : avg nums = none ↔ nums = [] := by
  unfold avg
  by_cases h : nums.length = 0
  · simp [h, List.length_eq_zero.mp h]
  · simp [h]
    intro hnil
    exact h (by rw [hnil]; rfl)

/-- C9: for every input list of entries, `summarizeQueryActivity`
satisfies: success_rate lies in [0,1] and is 0 on the empty list
(the division-by-zero case is guarded); top_sources has at most 20
elements and is sorted by count in non-increasing order;
unique_sources_count equals the number of distinct source strings
across all entries; and each average-time field is undefined exactly
when no entry supplies a finite value for that field. -/
theorem summarizeQueryActivity_props (entries : List QueryActivityEntry) :
    0 ≤ (summarizeQueryActivity entries).success_rate ∧
    (summarizeQueryActivity entries).success_rate ≤ 1 ∧
    (entries = [] → (summarizeQueryActivity entries).success_rate = 0) ∧
    (summarizeQueryActivity entries).top_sources.length ≤ 20 ∧
    (summarizeQueryActivity entries).top_sources.Pairwise (fun a b => b.2 ≤ a.2) ∧
    (summarizeQueryActivity entries).unique_sources_count
      = (entries.flatMap (fun e => e.sources)).dedup.length ∧
    ((summarizeQueryActivity entries).avg_retrieval_time_ms = none ↔
      ∀ e ∈ entries, finiteVal e.retrieval_time_ms = none) ∧
    ((summarizeQueryActivity entries).avg_generation_time_ms = none ↔
      ∀ e ∈ entries, finiteVal e.generation_time_ms = none) ∧
    ((summarizeQueryActivity entries).avg_total_time_ms = none ↔
      ∀ e ∈ entries, finiteVal e.total_time_ms = none) := by
  refine ⟨?_, ?_, ?_, ?_, ?_, ?_, ?_, ?_, ?_⟩
  · show 0 ≤ if entries.length = 0 then (0 : ℚ)
      else ((entries.filter (fun e => e.success)).length : ℚ) / (entries.length : ℚ)
    split
    · exact le_refl 0
    · positivity
  · show (if entries.length = 0 then (0 : ℚ)
      else ((entries.filter (fun e => e.success)).length : ℚ) / (entries.length : ℚ)) ≤ 1
    split
    · exact zero_le_one
    · rename_i h
      rw [div_le_one (by positivity)]
      exact_mod_cast List.length_filter_le _ _
  · intro h
    subst h
    rfl
  · exact List.length_take_le _ _
  · have hs : (List.mergeSort (sourceCounts entries)
        (fun a b => decide (b.2 ≤ a.2))).Pairwise (fun a b => b.2 ≤ a.2) := by
      have h := @List.sorted_mergeSort (String × ℕ)
        (fun a b => decide (b.2 ≤ a.2))
        (by intro a b c hab hbc; simp at hab hbc ⊢; omega)
        (by intro a b; simp; omega) (sourceCounts entries)
      exact h.imp (fun hab => by simpa using hab)
    exact hs.sublist (List.take_sublist _ _)
  · exact sourceCounts_length entries
  · rw [show (summarizeQueryActivity entries).avg_retrieval_time_ms
        = avg (entries.filterMap (fun e => finiteVal e.retrieval_time_ms)) from rfl,
      avg_eq_none_iff]
    exact List.filterMap_eq_nil_iff
  · rw [show (summarizeQueryActivity entries).avg_generation_time_ms
        = avg (entries.filterMap (fun e => finiteVal e.generation_time_ms)) from rfl,
      avg_eq_none_iff]
    exact List.filterMap_eq_nil_iff
  · rw [show (summarizeQueryActivity entries).avg_total_time_ms
        = avg (entries.filterMap (fun e => finiteVal e.total_time_ms)) from rfl,
      avg_eq_none_iff]
    exact List.filterMap_eq_nil_iff

/-- C9 witness: on the empty entry list the summary has success rate 0
and an undefined average retrieval time. -/
theorem summarizeQueryActivity_props_witness :
    (summarizeQueryActivity []).success_rate = 0 ∧
    (summarizeQueryActivity []).avg_retrieval_time_ms = none :=
  ⟨(summarizeQueryActivity_props []).2.2.1 rfl,
   ((summarizeQueryActivity_props []).2.2.2.2.2.2.1).mpr
     (by intro e he; cases he)⟩

/-- The `SystemConfig` interface (numbers from parsed JSON are
rationals, so every field of the record has its declared type by
construction). -/
structure SystemConfig where
  embedding_model : String
  language_models : List String
  vector_database : String
  chunk_size : ℚ
  chunk_overlap : ℚ
  storage_path : String

/-- `mockConfig`: the development defaults. -/
def mockConfig : SystemConfig :=
  { embedding_model := "Qwen/Qwen3-VL-Embedding-2B",
    language_models := ["LLaMA 3.2 8B"],
    vector_database := "Qdrant",
    chunk_size := 512,
    chunk_overlap := 50,
    storage_path := "qdrant://localhost:6333" }

/-- Property access `r.name` on a JS value: only a plain object binds
the named properties read here (a JSON-parsed object has unique keys,
so `find?` is exact); on arrays and primitives these properties are
absent (`undefined`). -/
def getField (v : JValue) (name : String) : Option JValue :=
  match v with
  | .jobj fields => (fields.find? (fun p => p.1 == name)).map Prod.snd
  | _ => none

/-- The test `m.trim().length > 0`: the trimmed string is nonempty iff
some character is not whitespace. -/
def jsNonBlank (s : String) : Bool := s.toList.any (fun c => !c.isWhitespace)

/-- `typeof x === 'string' ? x : d`. -/
def strOr (v : Option JValue) (d : String) : String :=
  match v with
  | some (.jstr s) => s
  | _ => d

/-- `typeof x === 'number' ? x : d`. -/
def numOr (v : Option JValue) (d : ℚ) : ℚ :=
  match v with
  | some (.jnum q) => q
  | _ => d

/-- The `languageModels` ternary chain: an array field keeps exactly
its nonblank strings; otherwise a nonblank legacy `language_model`
string is lifted to a one-element array; otherwise the default. -/
def normalizeLanguageModels (lm lmLegacy : Option JValue) : List String :=
  match lm with
  | some (.jarr xs) =>
    xs.filterMap (fun v => match v with
      | .jstr s => if jsNonBlank s then some s else none
      | _ => none)
  | _ =>
    match lmLegacy with
    | some (.jstr s) => if jsNonBlank s then [s] else mockConfig.language_models
    | _ => mockConfig.language_models

/-- `normalizeSystemConfig(raw)`: a falsy or non-object input yields
`mockConfig`; otherwise each field is taken from the input when it has
the declared type and from `mockConfig` otherwise, with the
`language_models`/`language_model` chain as above. -/
def normalizeSystemConfig (raw : JValue) : SystemConfig :=
  if jsTruthy raw && isObjectLike raw then
    { embedding_model := strOr (getField raw "embedding_model") mockConfig.embedding_model,
      language_models :=
        normalizeLanguageModels (getField raw "language_models")
          (getField raw "language_model"),
      vector_database := strOr (getField raw "vector_database") mockConfig.vector_database,
      chunk_size := numOr (getField raw "chunk_size") mockConfig.chunk_size,
      chunk_overlap := numOr (getField raw "chunk_overlap") mockConfig.chunk_overlap,
      storage_path := strOr (getField raw "storage_path") mockConfig.storage_path }
  else mockConfig

/-- `strOr` falls back to the default when the value is not a string. -/
theorem strOr_default (v : Option JValue) (d : String)
    (h : ∀ s, v ≠ some (.jstr s)) : strOr v d = d := by
  rcases v with _ | w
  · rfl
  · cases w with
    | jstr s => exact absurd rfl (h s)
    | jnull => rfl
    | jbool b => rfl
    | jnum q => rfl
    | jarr xs => rfl
    | jobj fs => rfl

/-- `numOr` falls back to the default when the value is not a number. -/
theorem numOr_default (v : Option JValue) (d : ℚ)
    (h : ∀ q, v ≠ some (.jnum q)) : numOr v d = d := by
  rcases v with _ | w
  · rfl
  · cases w with
    | jnum q => exact absurd rfl (h q)
    | jnull => rfl
    | jbool b => rfl
    | jstr s => rfl
    | jarr xs => rfl
    | jobj fs => rfl

/-- When the `language_models` field is not an array, the chain falls
through to the legacy `language_model` branch. -/
theorem normalizeLanguageModels_not_array (lm lmLegacy : Option JValue)
    (h : ∀ xs, lm ≠ some (.jarr xs)) :
    normalizeLanguageModels lm lmLegacy
      = match lmLegacy with
        | some (.jstr s) => if jsNonBlank s then [s] else mockConfig.language_models
        | _ => mockConfig.language_models := by
  rcases lm with _ | w
  · rfl
  · cases w with
    | jarr xs => exact absurd rfl (h xs)
    | jnull => rfl
    | jbool b => rfl
    | jnum q => rfl
    | jstr s => rfl
    | jobj fs => rfl

/-- A falsy or non-object value binds no property. -/
theorem getField_of_not_object (raw : JValue)
    (h : (jsTruthy raw && isObjectLike raw) = false) (name : String) :
    getField raw name = none := by
  cases raw with
  | jobj fs => simp [jsTruthy, isObjectLike] at h
  | jnull => rfl
  | jbool b => rfl
  | jnum q => rfl
  | jstr s => rfl
  | jarr xs => rfl

/-- C10: `normalizeSystemConfig` is total and type-safe — it is a
total function into the typed `SystemConfig` record; every falsy or
non-object input yields `mockConfig` wholesale; each scalar field is
taken from the input exactly when it has the declared type and is
otherwise replaced by the corresponding `mockConfig` default; an array
`language_models` keeps exactly its nonblank strings; and a legacy
singular `language_model` string is lifted into a one-element array. -/
theorem normalizeSystemConfig_total_defaults (raw : JValue) :
    ((jsTruthy raw && isObjectLike raw) = false →
      normalizeSystemConfig raw = mockConfig) ∧
    (∀ s, getField raw "embedding_model" = some (.jstr s) →
      (normalizeSystemConfig raw).embedding_model = s) ∧
    ((∀ s, getField raw "embedding_model" ≠ some (.jstr s)) →
      (normalizeSystemConfig raw).embedding_model = mockConfig.embedding_model) ∧
    (∀ s, getField raw "vector_database" = some (.jstr s) →
      (normalizeSystemConfig raw).vector_database = s) ∧
    ((∀ s, getField raw "vector_database" ≠ some (.jstr s)) →
      (normalizeSystemConfig raw).vector_database = mockConfig.vector_database) ∧
    (∀ s, getField raw "storage_path" = some (.jstr s) →
      (normalizeSystemConfig raw).storage_path = s) ∧
    ((∀ s, getField raw "storage_path" ≠ some (.jstr s)) →
      (normalizeSystemConfig raw).storage_path = mockConfig.storage_path) ∧
    (∀ q, getField raw "chunk_size" = some (.jnum q) →
      (normalizeSystemConfig raw).chunk_size = q) ∧
    ((∀ q, getField raw "chunk_size" ≠ some (.jnum q)) →
      (normalizeSystemConfig raw).chunk_size = mockConfig.chunk_size) ∧
    (∀ q, getField raw "chunk_overlap" = some (.jnum q) →
      (normalizeSystemConfig raw).chunk_overlap = q) ∧
    ((∀ q, getField raw "chunk_overlap" ≠ some (.jnum q)) →
      (normalizeSystemConfig raw).chunk_overlap = mockConfig.chunk_overlap) ∧
    (∀ xs, getField raw "language_models" = some (.jarr xs) →
      (normalizeSystemConfig raw).language_models
        = xs.filterMap (fun v => match v with
            | .jstr s => if jsNonBlank s then some s else none
            | _ => none)) ∧
    (∀ s, (∀ xs, getField raw "language_models" ≠ some (.jarr xs)) →
      getField raw "language_model" = some (.jstr s) → jsNonBlank s = true →
      (normalizeSystemConfig raw).language_models = [s]) ∧
    ((∀ xs, getField raw "language_models" ≠ some (.jarr xs)) →
      (∀ s, getField raw "language_model" ≠ some (.jstr s)) →
      (normalizeSystemConfig raw).language_models = mockConfig.language_models) := by
  by_cases hg : (jsTruthy raw && isObjectLike raw) = true
  · have hem : (normalizeSystemConfig raw).embedding_model
        = strOr (getField raw "embedding_model") mockConfig.embedding_model := by
      simp [normalizeSystemConfig, hg]
    have hvd : (normalizeSystemConfig raw).vector_database
        = strOr (getField raw "vector_database") mockConfig.vector_database := by
      simp [normalizeSystemConfig, hg]
    have hsp : (normalizeSystemConfig raw).storage_path
        = strOr (getField raw "storage_path") mockConfig.storage_path := by
      simp [normalizeSystemConfig, hg]
    have hcs : (normalizeSystemConfig raw).chunk_size
        = numOr (getField raw "chunk_size") mockConfig.chunk_size := by
      simp [normalizeSystemConfig, hg]
    have hco : (normalizeSystemConfig raw).chunk_overlap
        = numOr (getField raw "chunk_overlap") mockConfig.chunk_overlap := by
      simp [normalizeSystemConfig, hg]
    have hlm : (normalizeSystemConfig raw).language_models
        = normalizeLanguageModels (getField raw "language_models")
            (getField raw "language_model") := by
      simp [normalizeSystemConfig, hg]
    refine ⟨?_, ?_, ?_, ?_, ?_, ?_, ?_, ?_, ?_, ?_, ?_, ?_, ?_, ?_⟩
    · intro h
      rw [hg] at h
      cases h
    · intro s h
      rw [hem, h]
      rfl
    · intro h
      rw [hem]
      exact strOr_default _ _ h
    · intro s h
      rw [hvd, h]
      rfl
    · intro h
      rw [hvd]
      exact strOr_default _ _ h
    · intro s h
      rw [hsp, h]
      rfl
    · intro h
      rw [hsp]
      exact strOr_default _ _ h
    · intro q h
      rw [hcs, h]
      rfl
    · intro h
      rw [hcs]
      exact numOr_default _ _ h
    · intro q h
      rw [hco, h]
      rfl
    · intro h
      rw [hco]
      exact numOr_default _ _ h
    · intro xs h
      rw [hlm, h]
      rfl
    · intro s hnone hleg hnb
      rw [hlm, normalizeLanguageModels_not_array _ _ hnone, hleg]
      simp [hnb]
    · intro hnone hlegnone
      rw [hlm, normalizeLanguageModels_not_array _ _ hnone]
      rcases hLeg : getField raw "language_model" with _ | w
      · rfl
      · cases w with
        | jstr s => exact absurd hLeg (hlegnone s)
        | jnull => rfl
        | jbool b => rfl
        | jnum q => rfl
        | jarr xs => rfl
        | jobj fs => rfl
  · have hg' : (jsTruthy raw && isObjectLike raw) = false :=
      Bool.eq_false_iff.mpr hg
    have hmock : normalizeSystemConfig raw = mockConfig := by
      simp [normalizeSystemConfig, hg']
    have hnone := getField_of_not_object raw hg'
    refine ⟨fun _ => hmock, ?_, ?_, ?_, ?_, ?_, ?_, ?_, ?_, ?_, ?_, ?_, ?_, ?_⟩
    · intro s h
      rw [hnone "embedding_model"] at h
      cases h
    · intro _
      rw [hmock]
    · intro s h
      rw [hnone "vector_database"] at h
      cases h
    · intro _
      rw [hmock]
    · intro s h
      rw [hnone "storage_path"] at h
      cases h
    · intro _
      rw [hmock]
    · intro q h
      rw [hnone "chunk_size"] at h
      cases h
    · intro _
      rw [hmock]
    · intro q h
      rw [hnone "chunk_overlap"] at h
      cases h
    · intro _
      rw [hmock]
    · intro xs h
      rw [hnone "language_models"] at h
      cases h
    · intro s _ hleg _
      rw [hnone "language_model"] at hleg
      cases hleg
    · intro _ _
      rw [hmock]

/-- A raw config whose `embedding_model` is wrongly typed, whose
`storage_path` is wrongly typed, whose `chunk_size` is a valid number,
and which carries only the legacy singular `language_model`. -/
def rawConfigSample : JValue :=
  .jobj [("embedding_model", .jnum 5), ("language_model", .jstr "M1"),
         ("chunk_size", .jnum 1024), ("storage_path", .jbool true)]

/-- C10 witness: on the concrete raw config, the wrongly-typed fields
fall back to the `mockConfig` defaults, the valid number is passed
through, and the legacy string is lifted to a one-element array. -/
theorem normalizeSystemConfig_total_defaults_witness :
    (normalizeSystemConfig rawConfigSample).embedding_model
        = mockConfig.embedding_model ∧
    (normalizeSystemConfig rawConfigSample).language_models = ["M1"] ∧
    (normalizeSystemConfig rawConfigSample).chunk_size = 1024 ∧
    (normalizeSystemConfig rawConfigSample).storage_path
        = mockConfig.storage_path := by
  obtain ⟨-, -, hem, -, -, -, hsp, hcs, -, -, -, -, hlift, -⟩ :=
    normalizeSystemConfig_total_defaults rawConfigSample
  refine ⟨?_, ?_, ?_, ?_⟩
  · apply hem
    intro s h
    rw [show getField rawConfigSample "embedding_model"
        = some (JValue.jnum 5) from rfl] at h
    simp at h
  · apply hlift "M1"
    · intro xs h
      rw [show getField rawConfigSample "language_models" = none from rfl] at h
      cases h
    · rfl
    · decide
  · exact hcs 1024 rfl
  · apply hsp
    intro s h
    rw [show getField rawConfigSample "storage_path"
        = some (JValue.jbool true) from rfl] at h
    simp at h
